import Mathlib

/-!
Verification of the `polite` path/config utility library (`polite/paths.py`
and its configuration layer) against its design specification.

The filesystem is modelled as explicit state: paths are lists of path
segments (one segment per `os.path.join` component), a regular file is an
entry in an association list from paths to string contents, and a directory
is a member of a list of directory paths.  Python methods that touch the
filesystem become functions threading an `FS` value; methods that raise
become functions returning an error component.  Python exceptions are
modelled by the `PyErr` type: `valueError` is the `ValueError` raised by
`DirectoryMap.copy_file` (the specification's `InvalidState` error),
`keyError` is the `KeyError` (a `LookupError` subclass) raised by
`sys.modules[...]`, and `ioError` stands for the `IOError` of `shutil.copy`
on a missing source file.
-/

/-- A filesystem path, one string per path segment. -/
abbrev FsPath := List String

/-- Python exceptions raised by the modelled code.  `valueError` carries the
message of the `ValueError` raised by `copy_file` (the spec's `InvalidState`);
`keyError` carries the missing key of the `KeyError` (a `LookupError`
subclass) raised by `sys.modules[module_name]`. -/
inductive PyErr where
  | valueError : String → PyErr
  | keyError : String → PyErr
  | ioError : PyErr
  deriving DecidableEq, Repr

/-- Association-list lookup of a file's contents by path. -/
def lookupFile : List (FsPath × String) → FsPath → Option String
  | [], _ => none
  | (p, c) :: rest, q => if p = q then some c else lookupFile rest q

/-- The filesystem state: regular files (path to contents) and the set of
existing directories. -/
structure FS where
  files : List (FsPath × String)
  dirs : List FsPath
  deriving DecidableEq, Repr

/-- Contents of the regular file at `p`, if one exists. -/
def FS.readFile (fs : FS) (p : FsPath) : Option String :=
  lookupFile fs.files p

/-- `os.path.isfile`: a regular file exists at `p`. -/
def FS.isfile (fs : FS) (p : FsPath) : Bool :=
  (fs.readFile p).isSome

/-- `os.path.isdir`: a directory exists at `p`. -/
def FS.isdir (fs : FS) (p : FsPath) : Bool :=
  decide (p ∈ fs.dirs)

/-- Create or overwrite the regular file at `p` with contents `c`
(`shutil.copy`'s effect on the destination). -/
def FS.writeFile (fs : FS) (p : FsPath) (c : String) : FS :=
  { fs with files := (p, c) :: fs.files }

/-- All prefixes of a path, from the root down to the path itself: the
directories `os.makedirs` guarantees to exist afterwards. -/
def pathInits : FsPath → List FsPath
  | [] => [[]]
  | x :: xs => [] :: (pathInits xs).map (fun p => x :: p)

/-- `os.makedirs`: create the directory at `p` together with any missing
parent directories. -/
def FS.makedirs (fs : FS) (p : FsPath) : FS :=
  { fs with dirs := pathInits p ++ fs.dirs }

/-- `polite.paths.Directory`: wraps a stored directory location
(`self._dir_path`). -/
structure Directory where
  dir_path : FsPath
  deriving DecidableEq, Repr

/-- `Directory.get_path`: join the stored directory path with an optional
file name; pure, no I/O. -/
def Directory.get_path (d : Directory) (file_name : Option String) : FsPath :=
  match file_name with
  | none => d.dir_path
  | some f => d.dir_path ++ [f]

/-- `Directory.isdir`: `os.path.isdir(self._dir_path)`. -/
def Directory.isdir (d : Directory) (fs : FS) : Bool :=
  fs.isdir d.dir_path

/-- `Directory.isfile`: `os.path.isfile(self.get_path(file_name))`. -/
def Directory.isfile (d : Directory) (fs : FS) (file_name : String) : Bool :=
  fs.isfile (d.get_path (some file_name))

/-- `Directory.makedir`: make the directory (with parents, via
`os.makedirs`) if it does not already exist. -/
def Directory.makedir (d : Directory) (fs : FS) : FS :=
  if d.isdir fs then fs else fs.makedirs (d.get_path none)

/-- `polite.paths.DirectoryMap`: pairs a target and an (optional) source
`Directory`; `last_copy_path` records the destination of the last copy and
starts out as `None`. -/
structure DirectoryMap where
  target_dir : Directory
  source_dir : Option Directory
  last_copy_path : Option FsPath
  deriving DecidableEq, Repr

/-- `DirectoryMap.__init__`: stores the two directories and sets
`last_copy_path` to `None`. -/
def DirectoryMap.init (target_dir : Directory) (source_dir : Option Directory) :
    DirectoryMap :=
  ⟨target_dir, source_dir, none⟩

/-- `DirectoryMap.target_exists`: with a file name, `target_dir.isfile`;
without one, `target_dir.isdir`. -/
def DirectoryMap.target_exists (dm : DirectoryMap) (fs : FS)
    (file_name : Option String) : Bool :=
  match file_name with
  | some f => dm.target_dir.isfile fs f
  | none => dm.target_dir.isdir fs

/-- The destination file name: `dst_name` when given, else `src_name`
(the `if dst_name is None` block shared by `copy_file` and
`safe_copy_file`). -/
def dstFileName (src_name : String) : Option String → String
  | none => src_name
  | some d => d

/-- Append a string to the last segment of a path: the effect of Python's
`dst_file_path + new_ext` on a path in the segment-list model. -/
def pathAddExt : FsPath → String → FsPath
  | [], ext => [ext]
  | [x], ext => [x ++ ext]
  | x :: y :: xs, ext => x :: pathAddExt (y :: xs) ext

/-- Outcome of a stateful `DirectoryMap` method call: the exception raised
(if any), the object state after the call (unchanged when an exception was
raised before any mutation), and the filesystem after the call. -/
structure CopyResult where
  error : Option PyErr
  dmap : DirectoryMap
  fs : FS
  deriving DecidableEq, Repr

/-- `DirectoryMap.copy_file`: raises `ValueError` when `source_dir` is
`None`; otherwise resolves `dst_name` (defaulting to `src_name`), redirects
the destination by appending `new_ext` when the target file exists and
`overwrite` is false, makes the target directory, copies the source file's
contents to the destination (raising `IOError` when the source file is
missing), and records the destination as `last_copy_path`. -/
def DirectoryMap.copy_file (dm : DirectoryMap) (fs : FS) (src_name : String)
    (dst_name : Option String) (overwrite : Bool) (new_ext : String) :
    CopyResult :=
  match dm.source_dir with
  | none => ⟨some (PyErr.valueError "No source directory is given."), dm, fs⟩
  | some source_dir =>
    let file_name := dstFileName src_name dst_name
    let dst0 := dm.target_dir.get_path (some file_name)
    let dst_file_path :=
      if dm.target_exists fs (some file_name) && !overwrite then
        pathAddExt dst0 new_ext
      else dst0
    let src_file_path := source_dir.get_path (some src_name)
    let fs1 := dm.target_dir.makedir fs
    match fs1.readFile src_file_path with
    | none => ⟨some PyErr.ioError, dm, fs1⟩
    | some content =>
      ⟨none, { dm with last_copy_path := some dst_file_path },
        fs1.writeFile dst_file_path content⟩

/-- `DirectoryMap.safe_copy_file`: copy `src_name` to the target directory
only when the target file (named `dst_name`, defaulting to `src_name`) does
not exist already. -/
def DirectoryMap.safe_copy_file (dm : DirectoryMap) (fs : FS)
    (src_name : String) (dst_name : Option String) : CopyResult :=
  let file_name := dstFileName src_name dst_name
  if !(dm.target_exists fs (some file_name)) then
    dm.copy_file fs src_name dst_name false ".new"
  else ⟨none, dm, fs⟩

/-- Repeated invocation of `safe_copy_file`, propagating the updated map and
filesystem; stops early if a call raises. -/
def DirectoryMap.safe_copy_iter :
    DirectoryMap → FS → String → Option String → Nat → DirectoryMap × FS
  | dm, fs, _, _, 0 => (dm, fs)
  | dm, fs, src_name, dst_name, n + 1 =>
    let r := dm.safe_copy_file fs src_name dst_name
    match r.error with
    | some _ => (r.dmap, r.fs)
    | none => DirectoryMap.safe_copy_iter r.dmap r.fs src_name dst_name n

/-- `polite.paths.ObjDirectory.__init__`: looks the module up in
`sys.modules` (raising `KeyError`, a `LookupError` subclass, when absent),
resolves the directory containing the module's source file via `module_dir`
(modelled by the lookup table mapping module names directly to their source
directories), joins the extra path segments, and stores the result.  No
filesystem mutation is performed: the filesystem is returned unchanged. -/
def ObjDirectory (sys_modules : List (String × FsPath)) (module_name : String)
    (paths : List String) (fs : FS) : Except PyErr Directory × FS :=
  match sys_modules.lookup module_name with
  | none => (Except.error (PyErr.keyError module_name), fs)
  | some mod_dir => (Except.ok ⟨mod_dir ++ paths⟩, fs)

/-- `polite.paths.UserDataDirectory.__init__`: resolves the platform
per-user data root (an opaque resolver `user_data_dir` taking package and
company), joins the extra segments, and stores the result.  No filesystem
mutation is performed. -/
def UserDataDirectory (user_data_dir : String → String → FsPath)
    (package company : String) (paths : List String) (fs : FS) :
    Directory × FS :=
  (⟨user_data_dir package company ++ paths⟩, fs)

/-- `polite.paths.SiteDataDirectory.__init__`: resolves the platform
per-site data root (an opaque resolver `site_data_dir`), joins the extra
segments, and stores the result.  No filesystem mutation is performed. -/
def SiteDataDirectory (site_data_dir : String → String → FsPath)
    (package company : String) (paths : List String) (fs : FS) :
    Directory × FS :=
  (⟨site_data_dir package company ++ paths⟩, fs)

/-- The observable operations of a `Directory` object. -/
inductive DirOp where
  | get_path_op : Option String → DirOp
  | isdir_op : DirOp
  | isfile_op : String → DirOp
  | makedir_op : DirOp
  deriving DecidableEq, Repr

/-- Run one `Directory` method: each returns the object it leaves behind and
the filesystem after the call (`get_path`, `isdir` and `isfile` perform no
mutation; `makedir` may create directories). -/
def Directory.run_op (d : Directory) (fs : FS) : DirOp → Directory × FS
  | .get_path_op _ => (d, fs)
  | .isdir_op => (d, fs)
  | .isfile_op _ => (d, fs)
  | .makedir_op => (d, d.makedir fs)

/-- Run a sequence of `Directory` methods. -/
def Directory.run_ops : Directory → FS → List DirOp → Directory × FS
  | d, fs, [] => (d, fs)
  | d, fs, op :: ops =>
    let r := d.run_op fs op
    Directory.run_ops r.1 r.2 ops

/-- Structured YAML-like values: scalars (strings), sequences and mappings.
Covers the round-trip value universe of the specification: lists of strings,
nested mappings and the empty mapping. -/
inductive YValue where
  | s : String → YValue
  | lst : List YValue → YValue
  | map : List (String × YValue) → YValue
  deriving Repr

/-- Escape one character for the serialized form: delimiter characters and
the escape character itself are preceded by a backslash. -/
def escChar (c : Char) : List Char :=
  if c = '\\' ∨ c = 'E' then ['\\', c] else [c]

/-- Escape a character sequence for the serialized form. -/
def escStr : List Char → List Char
  | [] => []
  | c :: cs => escChar c ++ escStr cs

mutual

/-- Modelled from the spec: serializer of the external YAML library used by
`polite/configuration.py` (not present in the sources).  A concrete
injective textual encoding standing in for `yaml.dump`: a scalar is
`S<escaped>E`, a sequence `L<items>E`, a mapping `M<P<key>E<value>…>E`. -/
def encodeV : YValue → List Char
  | .s str => 'S' :: (escStr str.data ++ ['E'])
  | .lst xs => 'L' :: (encodeVs xs ++ ['E'])
  | .map ps => 'M' :: (encodePs ps ++ ['E'])

/-- Serialization of a sequence's items, in order. -/
def encodeVs : List YValue → List Char
  | [] => []
  | x :: xs => encodeV x ++ encodeVs xs

/-- Serialization of a mapping's pairs, in order. -/
def encodePs : List (String × YValue) → List Char
  | [] => []
  | (k, v) :: ps => 'P' :: (escStr k.data ++ 'E' :: (encodeV v ++ encodePs ps))

end

/-- Read an escaped character region up to its unescaped `E` terminator,
returning the unescaped contents and the remaining input. -/
def unescape : List Char → Option (List Char × List Char)
  | [] => none
  | c :: rest =>
    if c = '\\' then
      match rest with
      | [] => none
      | d :: rest2 => (unescape rest2).map (fun p => (d :: p.1, p.2))
    else if c = 'E' then some ([], rest)
    else (unescape rest).map (fun p => (c :: p.1, p.2))

mutual

/-- Modelled from the spec: parser of the external YAML library used by
`polite/configuration.py` (not present in the sources), inverse to
`encodeV`; fuelled recursive descent (`yaml.load`). -/
def parseV : Nat → List Char → Option (YValue × List Char)
  | 0, _ => none
  | fuel + 1, input =>
    match input with
    | 'S' :: rest => (unescape rest).map (fun p => (YValue.s (String.mk p.1), p.2))
    | 'L' :: rest => (parseVs fuel rest).map (fun p => (YValue.lst p.1, p.2))
    | 'M' :: rest => (parsePs fuel rest).map (fun p => (YValue.map p.1, p.2))
    | _ => none

/-- Parse sequence items up to the terminating `E`. -/
def parseVs : Nat → List Char → Option (List YValue × List Char)
  | 0, _ => none
  | fuel + 1, input =>
    match input with
    | 'E' :: rest => some ([], rest)
    | _ =>
      match parseV fuel input with
      | none => none
      | some (v, r) =>
        match parseVs fuel r with
        | none => none
        | some (vs, r2) => some (v :: vs, r2)

/-- Parse mapping pairs up to the terminating `E`. -/
def parsePs : Nat → List Char → Option (List (String × YValue) × List Char)
  | 0, _ => none
  | fuel + 1, input =>
    match input with
    | 'E' :: rest => some ([], rest)
    | 'P' :: rest =>
      match unescape rest with
      | none => none
      | some (k, r) =>
        match parseV fuel r with
        | none => none
        | some (v, r2) =>
          match parsePs fuel r2 with
          | none => none
          | some (ps, r3) => some ((String.mk k, v) :: ps, r3)
    | _ => none

end

/-- Modelled from the spec: `polite.configuration.ReadYAML` (the module
`polite/configuration.py` is not present in the sources; only its tests
are).  Holds the target config `Directory` and the YAML file's name. -/
structure ReadYAML where
  config_directory : Directory
  yaml_config_file_name : String

/-- Modelled from the spec: `ReadYAML.write(value)` serializes a structured
value to the named YAML file in the config directory, creating the directory
if needed; overwrites unconditionally. -/
def ReadYAML.write (ry : ReadYAML) (fs : FS) (v : YValue) : FS :=
  let fs1 := ry.config_directory.makedir fs
  fs1.writeFile (ry.config_directory.get_path (some ry.yaml_config_file_name))
    (String.mk (encodeV v))

/-- Modelled from the spec: `ReadYAML.read()` parses the named YAML file in
the config directory into its structured representation; `none` stands for
the `IOError`/`ParseError` cases (missing file, malformed content). -/
def ReadYAML.read (ry : ReadYAML) (fs : FS) : Option YValue :=
  match fs.readFile
      (ry.config_directory.get_path (some ry.yaml_config_file_name)) with
  | none => none
  | some content =>
    match parseV (content.data.length + 1) content.data with
    | some (v, []) => some v
    | _ => none

/-! ### Helper lemmas about the filesystem model -/

/-- Writing a file and reading it back at the same path yields the written
contents. -/
@[simp] theorem readFile_writeFile_self (fs : FS) (p : FsPath) (c : String) :
    (fs.writeFile p c).readFile p = some c := by
  simp [FS.writeFile, FS.readFile, lookupFile]

/-- Writing a file leaves every other path's contents unchanged. -/
theorem readFile_writeFile_ne (fs : FS) (p q : FsPath) (c : String)
    (h : p ≠ q) : (fs.writeFile p c).readFile q = fs.readFile q := by
  simp [FS.writeFile, FS.readFile, lookupFile, h]

/-- `makedir` touches only directories, never file contents. -/
@[simp] theorem makedir_files (d : Directory) (fs : FS) :
    (d.makedir fs).files = fs.files := by
  unfold Directory.makedir
  split <;> rfl

/-- Reading a file is unaffected by `makedir`. -/
@[simp] theorem readFile_makedir (d : Directory) (fs : FS) (q : FsPath) :
    (d.makedir fs).readFile q = fs.readFile q := by
  simp [FS.readFile]

/-- Every path is among its own prefixes. -/
theorem self_mem_pathInits (p : FsPath) : p ∈ pathInits p := by
  induction p with
  | nil => simp [pathInits]
  | cons x xs ih =>
    simp only [pathInits, List.mem_cons, List.mem_map]
    exact Or.inr ⟨xs, ih, rfl⟩

/-- After `os.makedirs p`, every prefix of `p` is an existing directory. -/
theorem isdir_makedirs (fs : FS) (p q : FsPath) (h : q ∈ pathInits p) :
    (fs.makedirs p).isdir q = true := by
  simp only [FS.makedirs, FS.isdir, List.mem_append, decide_eq_true_eq]
  exact Or.inl h

/-- After `makedir`, the directory itself exists. -/
theorem isdir_makedir_self (d : Directory) (fs : FS) :
    d.isdir (d.makedir fs) = true := by
  unfold Directory.makedir
  split
  · assumption
  · exact isdir_makedirs fs d.dir_path d.dir_path (self_mem_pathInits _)

/-- `makedir` is idempotent. -/
theorem makedir_makedir (d : Directory) (fs : FS) :
    d.makedir (d.makedir fs) = d.makedir fs := by
  have h := isdir_makedir_self d fs
  unfold Directory.makedir at h ⊢
  split at h <;> simp_all

/-- Appending an extension to a path ending in a file name appends it to
that file name. -/
theorem pathAddExt_append (xs : FsPath) (y e : String) :
    pathAddExt (xs ++ [y]) e = xs ++ [y ++ e] := by
  induction xs with
  | nil => rfl
  | cons x xs ih =>
    cases h : xs ++ [y] with
    | nil => exact absurd h (List.append_ne_nil_of_right_ne_nil xs (by simp))
    | cons z zs =>
      simp only [List.cons_append, h, pathAddExt]
      rw [← h, ih]

/-- Appending a nonempty extension changes a string. -/
theorem append_new_ne (s : String) : s ++ ".new" ≠ s := by
  intro h
  have := congrArg String.length h
  simp [String.length_append] at this
  exact absurd this (by decide)

/-- Paths differing in their final file name are different paths. -/
theorem append_singleton_ne (dir : FsPath) (a b : String) (h : a ≠ b) :
    dir ++ [a] ≠ dir ++ [b] := by
  intro he
  exact h (by simpa using List.append_cancel_left he)

/-- `run_ops` never changes the `Directory` object. -/
theorem run_ops_fst (ops : List DirOp) :
    ∀ (d : Directory) (fs : FS), (Directory.run_ops d fs ops).1 = d := by
  induction ops with
  | nil => intro d fs; rfl
  | cons op ops ih =>
    intro d fs
    cases op <;> simpa [Directory.run_ops, Directory.run_op] using ih _ _

/-! ### Concrete fixtures used by the witness theorems -/

/-- A concrete target directory. -/
def exDir : Directory := ⟨["t"]⟩

/-- A concrete source directory. -/
def exSrcDir : Directory := ⟨["s"]⟩

/-- A concrete filesystem: the source holds `a.ini`, the target already
holds both `a.ini` and a stale `a.ini.new`. -/
def exFS : FS :=
  ⟨[(["s", "a.ini"], "hello"), (["t", "a.ini"], "old"),
    (["t", "a.ini.new"], "stale")], [["s"], ["t"]]⟩

/-- A concrete map with both directories set. -/
def exDM : DirectoryMap := ⟨exDir, some exSrcDir, none⟩

/-- A concrete map with no source directory. -/
def exDMnoSrc : DirectoryMap := ⟨exDir, none, none⟩

/-! ### The claims -/

/-- C5: `Directory.makedir` is a no-op when the directory exists (and so
raises nothing), creates the directory together with every missing parent
when it does not, and calling it twice leaves the same state as calling it
once. -/
theorem claim_C5_makedir_idempotent (d : Directory) (fs : FS) (q : FsPath)
    (hq : q ∈ pathInits d.dir_path) :
    (d.isdir fs = true → d.makedir fs = fs) ∧
    (d.isdir fs = false → FS.isdir (d.makedir fs) q = true) ∧
    d.makedir (d.makedir fs) = d.makedir fs := by
  refine ⟨fun h => by simp [Directory.makedir, h], fun h => ?_,
    makedir_makedir d fs⟩
  simp only [Directory.makedir, h, Bool.false_eq_true, if_false,
    Directory.get_path]
  exact isdir_makedirs fs d.dir_path q hq

/-- C5 witness: instantiation on an empty filesystem and the directory
`["t"]`. -/
theorem claim_C5_makedir_idempotent_witness :
    ((["t"] : FsPath) ∈ pathInits ["t"]) ∧
    ((Directory.isdir ⟨["t"]⟩ ⟨[], []⟩ = true →
        Directory.makedir ⟨["t"]⟩ ⟨[], []⟩ = ⟨[], []⟩) ∧
     (Directory.isdir ⟨["t"]⟩ ⟨[], []⟩ = false →
        FS.isdir (Directory.makedir ⟨["t"]⟩ ⟨[], []⟩) ["t"] = true) ∧
     Directory.makedir ⟨["t"]⟩ (Directory.makedir ⟨["t"]⟩ ⟨[], []⟩) =
       Directory.makedir ⟨["t"]⟩ ⟨[], []⟩) :=
  ⟨by decide, claim_C5_makedir_idempotent ⟨["t"]⟩ ⟨[], []⟩ ["t"] (by decide)⟩

/-- C8: `isfile f` is true exactly when a regular file exists at
`get_path f`, and `get_path f` is the pure join of the stored directory path
with `f`. -/
theorem claim_C8_isfile_iff_get_path (d : Directory) (fs : FS) (f : String) :
    (d.isfile fs f = true ↔ ∃ c, fs.readFile (d.get_path (some f)) = some c) ∧
    d.get_path (some f) = d.dir_path ++ [f] := by
  exact ⟨by simp [Directory.isfile, FS.isfile, Option.isSome_iff_exists], rfl⟩

/-- C10: no sequence of `Directory` operations changes the stored path:
the object is returned unchanged and `get_path` answers the same before and
after. -/
theorem claim_C10_path_never_mutated (d : Directory) (fs : FS)
    (ops : List DirOp) (f : Option String) :
    (Directory.run_ops d fs ops).1 = d ∧
    (Directory.run_ops d fs ops).1.get_path f = d.get_path f := by
  have h := run_ops_fst ops d fs
  exact ⟨h, by rw [h]⟩

/-- C2: `safe_copy_file` is a strict no-op when the target file exists,
defers to `copy_file` (with overwrite false) exactly when it does not, and
any number of repetitions while the target exists changes nothing. -/
theorem claim_C2_safe_copy_idempotent (dm : DirectoryMap) (fs : FS)
    (src_name : String) (dst_name : Option String) (n : Nat) :
    (dm.target_exists fs (some (dstFileName src_name dst_name)) = true →
        dm.safe_copy_file fs src_name dst_name = ⟨none, dm, fs⟩ ∧
        dm.safe_copy_iter fs src_name dst_name n = (dm, fs)) ∧
    (dm.target_exists fs (some (dstFileName src_name dst_name)) = false →
        dm.safe_copy_file fs src_name dst_name =
          dm.copy_file fs src_name dst_name false ".new") := by
  constructor
  · intro h
    have hsafe : dm.safe_copy_file fs src_name dst_name = ⟨none, dm, fs⟩ := by
      simp [DirectoryMap.safe_copy_file, h]
    refine ⟨hsafe, ?_⟩
    induction n with
    | zero => rfl
    | succ n ih =>
      simp only [DirectoryMap.safe_copy_iter, hsafe]
      exact ih
  · intro h
    simp [DirectoryMap.safe_copy_file, h]

/-- C2 witness: with the target file `a.ini` already present, one call and
three iterated calls of `safe_copy_file` leave map and filesystem
untouched. -/
theorem claim_C2_safe_copy_idempotent_witness :
    DirectoryMap.target_exists exDM exFS (some (dstFileName "a.ini" none)) =
      true ∧
    (DirectoryMap.safe_copy_file exDM exFS "a.ini" none = ⟨none, exDM, exFS⟩ ∧
     DirectoryMap.safe_copy_iter exDM exFS "a.ini" none 3 = (exDM, exFS)) :=
  ⟨by decide,
   (claim_C2_safe_copy_idempotent exDM exFS "a.ini" none 3).1 (by decide)⟩

/-- C3: with no source directory, `copy_file` raises the `InvalidState`
error (the `ValueError` of the code) with the map and the filesystem
untouched, and `safe_copy_file` on an absent target raises the same error
the same way. -/
theorem claim_C3_invalid_state (dm : DirectoryMap) (fs : FS)
    (src_name : String) (dst_name : Option String) (overwrite : Bool)
    (new_ext : String) (hsrc : dm.source_dir = none) :
    dm.copy_file fs src_name dst_name overwrite new_ext =
      ⟨some (PyErr.valueError "No source directory is given."), dm, fs⟩ ∧
    (dm.target_exists fs (some (dstFileName src_name dst_name)) = false →
      dm.safe_copy_file fs src_name dst_name =
        ⟨some (PyErr.valueError "No source directory is given."), dm, fs⟩) := by
  constructor
  · simp [DirectoryMap.copy_file, hsrc]
  · intro h
    simp [DirectoryMap.safe_copy_file, h, DirectoryMap.copy_file, hsrc]

/-- C3 witness: a map with `source_dir = none` over the concrete filesystem;
`b.ini` is absent from the target. -/
theorem claim_C3_invalid_state_witness :
    DirectoryMap.source_dir exDMnoSrc = none ∧
    (DirectoryMap.copy_file exDMnoSrc exFS "b.ini" none false ".new" =
      ⟨some (PyErr.valueError "No source directory is given."), exDMnoSrc,
        exFS⟩ ∧
     (DirectoryMap.target_exists exDMnoSrc exFS
          (some (dstFileName "b.ini" none)) = false →
       DirectoryMap.safe_copy_file exDMnoSrc exFS "b.ini" none =
         ⟨some (PyErr.valueError "No source directory is given."), exDMnoSrc,
           exFS⟩)) :=
  ⟨by decide, claim_C3_invalid_state exDMnoSrc exFS "b.ini" none false ".new"
    (by decide)⟩

/-- C6: constructing an `ObjDirectory` for an unregistered module raises
`KeyError` (a `LookupError` subclass), and none of the three construction
strategies mutates the filesystem (directory creation is deferred to
`makedir`). -/
theorem claim_C6_constructors (sys_modules : List (String × FsPath))
    (module_name module_name2 : String) (paths : List String) (fs : FS)
    (udd sdd : String → String → FsPath) (package company : String)
    (h : sys_modules.lookup module_name = none) :
    ObjDirectory sys_modules module_name paths fs =
      (Except.error (PyErr.keyError module_name), fs) ∧
    (ObjDirectory sys_modules module_name2 paths fs).2 = fs ∧
    (UserDataDirectory udd package company paths fs).2 = fs ∧
    (SiteDataDirectory sdd package company paths fs).2 = fs := by
  refine ⟨by simp [ObjDirectory, h], ?_, rfl, rfl⟩
  unfold ObjDirectory
  cases sys_modules.lookup module_name2 <;> rfl

/-- C6 witness: a one-entry module table; `"missing"` is not registered. -/
theorem claim_C6_constructors_witness :
    ([("polite.paths", ["site", "polite"])] :
        List (String × FsPath)).lookup "missing" = none ∧
    (ObjDirectory [("polite.paths", ["site", "polite"])] "missing"
        ["examples", "config"] exFS =
      (Except.error (PyErr.keyError "missing"), exFS) ∧
     (ObjDirectory [("polite.paths", ["site", "polite"])] "polite.paths"
         ["examples", "config"] exFS).2 = exFS ∧
     (UserDataDirectory (fun _ _ => ["u"]) "pkg" "co" [] exFS).2 = exFS ∧
     (SiteDataDirectory (fun _ _ => ["v"]) "pkg" "co" [] exFS).2 = exFS) :=
  ⟨by decide,
   claim_C6_constructors [("polite.paths", ["site", "polite"])] "missing"
     "polite.paths" ["examples", "config"] exFS (fun _ _ => ["u"])
     (fun _ _ => ["v"]) "pkg" "co" (by decide)⟩

/-- C1: with a source directory set and the target file already present,
`copy_file` with `overwrite` false raises nothing, leaves the existing
target file's contents untouched, and writes the source file's contents to
the sibling file `dst_name ++ ".new"` in the target directory. -/
theorem claim_C1_conflict_writes_alongside (dm : DirectoryMap) (fs : FS)
    (src_name dst_name : String) (sdir : Directory) (c : String)
    (hsrc : dm.source_dir = some sdir)
    (hdst : dm.target_exists fs (some dst_name) = true)
    (hread : fs.readFile (sdir.get_path (some src_name)) = some c) :
    (dm.copy_file fs src_name (some dst_name) false ".new").error = none ∧
    (dm.copy_file fs src_name (some dst_name) false ".new").fs.readFile
        (dm.target_dir.get_path (some dst_name)) =
      fs.readFile (dm.target_dir.get_path (some dst_name)) ∧
    (dm.copy_file fs src_name (some dst_name) false ".new").fs.readFile
        (dm.target_dir.get_path (some (dst_name ++ ".new"))) = some c := by
  have hkey : dm.copy_file fs src_name (some dst_name) false ".new" =
      ⟨none,
        ⟨dm.target_dir, dm.source_dir,
          some (dm.target_dir.get_path (some (dst_name ++ ".new")))⟩,
        (dm.target_dir.makedir fs).writeFile
          (dm.target_dir.get_path (some (dst_name ++ ".new"))) c⟩ := by
    simp only [Directory.get_path] at hread
    simp [DirectoryMap.copy_file, hsrc, dstFileName, hdst, hread,
      Directory.get_path, pathAddExt_append]
  have hne : dm.target_dir.get_path (some (dst_name ++ ".new")) ≠
      dm.target_dir.get_path (some dst_name) :=
    append_singleton_ne dm.target_dir.dir_path _ _ (append_new_ne dst_name)
  refine ⟨by rw [hkey], ?_, ?_⟩
  · rw [hkey]
    show ((dm.target_dir.makedir fs).writeFile _ c).readFile _ = _
    rw [readFile_writeFile_ne _ _ _ _ hne, readFile_makedir]
  · rw [hkey]
    exact readFile_writeFile_self _ _ _

/-- C1 witness: target already holds `a.ini`; the copy succeeds, `a.ini`
keeps its contents and `a.ini.new` receives the source's contents. -/
theorem claim_C1_conflict_writes_alongside_witness :
    DirectoryMap.source_dir exDM = some exSrcDir ∧
    DirectoryMap.target_exists exDM exFS (some "a.ini") = true ∧
    FS.readFile exFS (exSrcDir.get_path (some "a.ini")) = some "hello" ∧
    ((DirectoryMap.copy_file exDM exFS "a.ini" (some "a.ini") false
        ".new").error = none ∧
     (DirectoryMap.copy_file exDM exFS "a.ini" (some "a.ini") false
        ".new").fs.readFile (exDM.target_dir.get_path (some "a.ini")) =
       exFS.readFile (exDM.target_dir.get_path (some "a.ini")) ∧
     (DirectoryMap.copy_file exDM exFS "a.ini" (some "a.ini") false
        ".new").fs.readFile
         (exDM.target_dir.get_path (some ("a.ini" ++ ".new"))) =
       some "hello") :=
  ⟨by decide, by decide, by decide,
   claim_C1_conflict_writes_alongside exDM exFS "a.ini" "a.ini" exSrcDir
     "hello" (by decide) (by decide) (by decide)⟩

/-- C4: when the target directory holds both `dst_name` and
`dst_name ++ ".new"`, the redirected destination is not itself checked for
existence: `copy_file` with `overwrite` false overwrites the existing
`.new` file with the source's contents. -/
theorem claim_C4_new_file_overwritten (dm : DirectoryMap) (fs : FS)
    (src_name dst_name : String) (sdir : Directory) (c c0 : String)
    (hsrc : dm.source_dir = some sdir)
    (hdst : dm.target_exists fs (some dst_name) = true)
    (_hnew : fs.readFile (dm.target_dir.get_path (some (dst_name ++ ".new"))) =
      some c0)
    (hread : fs.readFile (sdir.get_path (some src_name)) = some c) :
    (dm.copy_file fs src_name (some dst_name) false ".new").error = none ∧
    (dm.copy_file fs src_name (some dst_name) false ".new").fs.readFile
        (dm.target_dir.get_path (some (dst_name ++ ".new"))) = some c := by
  have hkey : dm.copy_file fs src_name (some dst_name) false ".new" =
      ⟨none,
        ⟨dm.target_dir, dm.source_dir,
          some (dm.target_dir.get_path (some (dst_name ++ ".new")))⟩,
        (dm.target_dir.makedir fs).writeFile
          (dm.target_dir.get_path (some (dst_name ++ ".new"))) c⟩ := by
    simp only [Directory.get_path] at hread
    simp [DirectoryMap.copy_file, hsrc, dstFileName, hdst, hread,
      Directory.get_path, pathAddExt_append]
  exact ⟨by rw [hkey], by rw [hkey]; exact readFile_writeFile_self _ _ _⟩

/-- C4 witness: the target holds `a.ini` and a stale `a.ini.new`; after the
copy the `.new` file holds the source's contents instead. -/
theorem claim_C4_new_file_overwritten_witness :
    DirectoryMap.source_dir exDM = some exSrcDir ∧
    DirectoryMap.target_exists exDM exFS (some "a.ini") = true ∧
    FS.readFile exFS (exDM.target_dir.get_path (some ("a.ini" ++ ".new"))) =
      some "stale" ∧
    FS.readFile exFS (exSrcDir.get_path (some "a.ini")) = some "hello" ∧
    ((DirectoryMap.copy_file exDM exFS "a.ini" (some "a.ini") false
        ".new").error = none ∧
     (DirectoryMap.copy_file exDM exFS "a.ini" (some "a.ini") false
        ".new").fs.readFile
         (exDM.target_dir.get_path (some ("a.ini" ++ ".new"))) =
       some "hello") :=
  ⟨by decide, by decide, by decide, by decide,
   claim_C4_new_file_overwritten exDM exFS "a.ini" "a.ini" exSrcDir "hello"
     "stale" (by decide) (by decide) (by decide) (by decide)⟩

/-- C9: `last_copy_path` starts out `None`, a successful `copy_file` sets it
to exactly the destination path that was written (the `.new`-redirected path
when the conflict policy applied), and a raising call leaves the map, and so
`last_copy_path`, unchanged. -/
theorem claim_C9_last_copy_path (dm : DirectoryMap) (fs : FS)
    (src_name : String) (dst_name : Option String) (overwrite : Bool)
    (new_ext : String) (t : Directory) (s : Option Directory) :
    (DirectoryMap.init t s).last_copy_path = none ∧
    ((dm.copy_file fs src_name dst_name overwrite new_ext).error = none →
      ∃ p c,
        (dm.copy_file fs src_name dst_name overwrite
            new_ext).dmap.last_copy_path = some p ∧
        (dm.copy_file fs src_name dst_name overwrite new_ext).fs.readFile p =
          some c ∧
        p = (if dm.target_exists fs (some (dstFileName src_name dst_name))
              && !overwrite then
            pathAddExt
              (dm.target_dir.get_path (some (dstFileName src_name dst_name)))
              new_ext
          else
            dm.target_dir.get_path (some (dstFileName src_name dst_name)))) ∧
    (∀ e, (dm.copy_file fs src_name dst_name overwrite new_ext).error =
        some e →
      (dm.copy_file fs src_name dst_name overwrite new_ext).dmap = dm) := by
  refine ⟨rfl, ?_, ?_⟩
  · intro herr
    cases hs : dm.source_dir with
    | none => simp [DirectoryMap.copy_file, hs] at herr
    | some sdir =>
      cases hr : (dm.target_dir.makedir fs).readFile
          (sdir.get_path (some src_name)) with
      | none => simp [DirectoryMap.copy_file, hs, hr] at herr
      | some content =>
        refine ⟨_, content, ?_, ?_, rfl⟩
        · simp [DirectoryMap.copy_file, hs, hr]
        · simp [DirectoryMap.copy_file, hs, hr]
  · intro e herr
    cases hs : dm.source_dir with
    | none => simp [DirectoryMap.copy_file, hs]
    | some sdir =>
      cases hr : (dm.target_dir.makedir fs).readFile
          (sdir.get_path (some src_name)) with
      | none => simp [DirectoryMap.copy_file, hs, hr]
      | some content => simp [DirectoryMap.copy_file, hs, hr] at herr

/-- C9 witness: the concrete successful copy sets `last_copy_path` to the
written destination. -/
theorem claim_C9_last_copy_path_witness :
    (DirectoryMap.copy_file exDM exFS "a.ini" none false ".new").error =
      none ∧
    (∃ p c,
      (DirectoryMap.copy_file exDM exFS "a.ini" none false
          ".new").dmap.last_copy_path = some p ∧
      (DirectoryMap.copy_file exDM exFS "a.ini" none false
          ".new").fs.readFile p = some c ∧
      p = (if DirectoryMap.target_exists exDM exFS
            (some (dstFileName "a.ini" none)) && !false then
          pathAddExt
            (exDM.target_dir.get_path (some (dstFileName "a.ini" none)))
            ".new"
        else exDM.target_dir.get_path (some (dstFileName "a.ini" none)))) :=
  ⟨by decide,
   (claim_C9_last_copy_path exDM exFS "a.ini" none false ".new" exDir
     none).2.1 (by decide)⟩

/-- Unescaping inverts escaping: an escaped region followed by its `E`
terminator parses back to the original characters. -/
theorem unescape_escStr (s rest : List Char) :
    unescape (escStr s ++ 'E' :: rest) = some (s, rest) := by
  induction s with
  | nil =>
    rw [unescape.eq_def]
    simp [escStr]
  | cons c cs ih =>
    rcases Decidable.em (c = '\\' ∨ c = 'E') with hc | hc
    · simp only [escStr, escChar, if_pos hc, List.cons_append,
        List.nil_append, List.append_assoc]
      rw [unescape.eq_def]
      simp [ih]
    · have h1 : c ≠ '\\' := fun h => hc (Or.inl h)
      have h2 : c ≠ 'E' := fun h => hc (Or.inr h)
      simp only [escStr, escChar, if_neg hc, List.cons_append,
        List.nil_append]
      rw [unescape.eq_def]
      simp [h1, h2, ih]

/-- Every serialized value is nonempty (it starts with a marker). -/
theorem encodeV_length_pos (v : YValue) : 1 ≤ (encodeV v).length := by
  cases v <;> simp [encodeV]

/-- The parser inverts the serializer, given fuel at least the length of the
serialized form: values, sequence bodies and mapping bodies all parse back
to what was encoded, leaving the rest of the input untouched. -/
theorem parse_encode (fuel : Nat) :
    (∀ (v : YValue) (rest : List Char), (encodeV v).length ≤ fuel →
      parseV fuel (encodeV v ++ rest) = some (v, rest)) ∧
    (∀ (xs : List YValue) (rest : List Char),
      (encodeVs xs).length + 1 ≤ fuel →
      parseVs fuel (encodeVs xs ++ 'E' :: rest) = some (xs, rest)) ∧
    (∀ (ps : List (String × YValue)) (rest : List Char),
      (encodePs ps).length + 1 ≤ fuel →
      parsePs fuel (encodePs ps ++ 'E' :: rest) = some (ps, rest)) := by
  induction fuel with
  | zero =>
    refine ⟨fun v rest h => ?_, fun xs rest h => ?_, fun ps rest h => ?_⟩
    · exact absurd h (by have := encodeV_length_pos v; omega)
    · omega
    · omega
  | succ fuel ih =>
    obtain ⟨ihP, ihQ, ihR⟩ := ih
    refine ⟨fun v rest h => ?_, fun xs rest h => ?_, fun ps rest h => ?_⟩
    · cases v with
      | s str =>
        simp [encodeV, parseV, List.append_assoc, unescape_escStr]
      | lst xs =>
        have hq := ihQ xs rest (by simp [encodeV] at h; omega)
        simp [encodeV, parseV, List.append_assoc, hq]
      | map ps =>
        have hr := ihR ps rest (by simp [encodeV] at h; omega)
        simp [encodeV, parseV, List.append_assoc, hr]
    · cases xs with
      | nil => simp [encodeVs, parseVs]
      | cons x xs =>
        have hlx := encodeV_length_pos x
        have hx := ihP x (encodeVs xs ++ 'E' :: rest)
          (by simp [encodeVs, List.length_append] at h; omega)
        have hq := ihQ xs rest
          (by simp [encodeVs, List.length_append] at h; omega)
        cases x <;>
          simp only [encodeVs, encodeV, List.cons_append, List.nil_append,
            List.append_assoc] at hx ⊢ <;>
          simp [parseVs, hx, hq]
    · cases ps with
      | nil => simp [encodePs, parsePs]
      | cons p ps =>
        obtain ⟨k, v⟩ := p
        have hlx := encodeV_length_pos v
        have hx := ihP v (encodePs ps ++ 'E' :: rest)
          (by simp [encodePs, List.length_append] at h; omega)
        have hr := ihR ps rest
          (by simp [encodePs, List.length_append] at h; omega)
        simp [encodePs, parsePs, List.append_assoc, unescape_escStr, hx, hr]

/-- C7: writing a structured value with `ReadYAML.write` and reading the
same file back with `ReadYAML.read` yields a value structurally equal to the
one written (in particular for lists of strings, nested mappings and the
empty mapping). -/
theorem claim_C7_yaml_roundtrip (ry : ReadYAML) (fs : FS) (v : YValue) :
    ry.read (ry.write fs v) = some v := by
  have h := (parse_encode ((encodeV v).length + 1)).1 v [] (by omega)
  rw [List.append_nil] at h
  simp [ReadYAML.write, ReadYAML.read, h]
